import Mathlib

/-!
# Verification of the Quicksilver Roguelike demo

A shallow embedding of `src/main.rs`: the map generator, the entity
catalog, the glyph-atlas construction performed in `Game::new`, and the
per-frame compositing pass `Game::draw`.

Conventions of the embedding:
* Rust `usize` loop counters become `Nat`; `i32` coordinates become `Int`.
* The four `quicksilver::graphics::Color` constants used by the program
  (BLACK, RED, BLUE, WHITE) become an enumeration.
* An `Image` obtained by `subimage` is identified with its source
  rectangle; a rasterized text image is likewise identified with its
  area rectangle (its pixel content never matters to the claims).
* `HashMap<char, Image>` is modelled as an association list with
  insert-replaces and first-match lookup, since the program only ever
  calls `insert` and `get`.
* `Asset<T>` is an external collaborator (the quicksilver framework).
  Modelled from the spec: an asset observed by `draw` is either resolved
  to its value or failed/not-ready, and `Asset::execute` propagates the
  failure of a required asset to the caller (spec sections 4.4, 5 and 7:
  required-asset failures and not-yet-ready abort the frame with an
  error; title, captions and the tilemap are executed through the `?`
  operator in `Game::draw`).
-/

/-- The color constants of `quicksilver::graphics::Color` used by the
program. -/
inductive Color where
  | black
  | red
  | blue
  | white
  deriving DecidableEq, Repr

/-- `struct Tile` from `src/main.rs`: grid coordinates (i32), a glyph and
a tint. -/
structure Tile where
  x : Int
  y : Int
  glyph : Char
  color : Color
  deriving DecidableEq, Repr

/-- `struct Entity` from `src/main.rs`: same fields as `Tile`. -/
structure Entity where
  x : Int
  y : Int
  glyph : Char
  color : Color
  deriving DecidableEq, Repr

/-- The tile pushed for grid cell `(x, y)` by `generate_map`: glyph
starts as `'.'` and is overwritten to `'#'` when the cell lies on the
border; color is `Color::BLACK`. -/
def mkTile (width height x y : Nat) : Tile :=
  { x := (x : Int), y := (y : Int),
    glyph :=
      if x == 0 || x == width - 1 || y == 0 || y == height - 1 then '#'
      else '.',
    color := Color.black }

/-- `fn generate_map(width, height) -> Vec<Tile>`: outer loop over `x` in
`0..width`, inner loop over `y` in `0..height`, pushing one tile per
cell. -/
def generate_map (width height : Nat) : List Tile :=
  (List.range width).flatMap fun x =>
    (List.range height).map fun y => mkTile width height x y

/-- `fn generate_entities() -> Vec<Entity>`: two goblins, red, at (9,6)
and (2,4). -/
def generate_entities : List Entity :=
  [ { x := 9, y := 6, glyph := 'g', color := Color.red },
    { x := 2, y := 4, glyph := 'g', color := Color.red } ]

/-! ## Panic-faithful variant of `generate_map`

In Rust, `width - 1` and `height - 1` are `usize` subtractions that
panic (in debug builds) when the operand is `0`; `||` short-circuits, so
each subtraction is evaluated only when the preceding disjuncts are
false. `checkedSub` returns `none` exactly where the Rust subtraction
would panic, and `generate_map_checked` threads that failure through the
two loops. -/

/-- `usize` subtraction with panic modelled as `none`. -/
def checkedSub (a b : Nat) : Option Nat :=
  if b ≤ a then some (a - b) else none

/-- The glyph chosen for cell `(x, y)`, evaluating the border test with
Rust's short-circuit `||` and checked subtraction. -/
def tileGlyphChecked (width height x y : Nat) : Option Char :=
  if x == 0 then some '#'
  else
    match checkedSub width 1 with
    | none => none
    | some w1 =>
      if x == w1 then some '#'
      else if y == 0 then some '#'
      else
        match checkedSub height 1 with
        | none => none
        | some h1 => if y == h1 then some '#' else some '.'

/-- Effectful map over a list in the `Option` monad; `none` aborts the
whole traversal, as a panic aborts the loop. -/
def optMapM (f : α → Option β) : List α → Option (List β)
  | [] => some []
  | a :: l =>
    match f a with
    | none => none
    | some b =>
      match optMapM f l with
      | none => none
      | some bs => some (b :: bs)

/-- `generate_map` with the panic-faithful border test: iterates the same
cells in the same order and aborts where Rust would panic. -/
def generate_map_checked (width height : Nat) : Option (List Tile) :=
  optMapM
    (fun p =>
      (tileGlyphChecked width height p.1 p.2).map fun gl =>
        { x := (p.1 : Int), y := (p.2 : Int), glyph := gl,
          color := Color.black })
    ((List.range width).flatMap fun x =>
      (List.range height).map fun y => (x, y))

/-! ## The glyph atlas built in `Game::new` -/

/-- An image region: position and size within the rasterized strip, in
pixels (`Rectangle::new(pos, size)` of the source). -/
structure Rect where
  x : Int
  y : Int
  w : Int
  h : Int
  deriving DecidableEq, Repr

/-- `HashMap::insert`: replaces the value when the key is present. -/
def mapInsert (m : List (Char × Rect)) (k : Char) (v : Rect) :
    List (Char × Rect) :=
  if m.any (fun p => p.1 == k) then
    m.map fun p => if p.1 == k then (k, v) else p
  else m ++ [(k, v)]

/-- `HashMap::get`: first (unique) binding of the key, if any. -/
def mapGet (m : List (Char × Rect)) (k : Char) : Option Rect :=
  (m.find? fun p => p.1 == k).map (·.2)

/-- The glyph-atlas loop of `Game::new`: for each character of the source
string at index `i`, insert the sub-image at horizontal offset
`i * width`, vertical offset `0`, of size `(width, height)`. -/
def build_tilemap (src : List Char) (width height : Int) :
    List (Char × Rect) :=
  src.enum.foldl
    (fun tilemap p =>
      mapInsert tilemap p.2 ⟨(p.1 : Int) * width, 0, width, height⟩)
    []

/-- `tilemap_source` of `Game::new`. -/
def tilemap_source : String := "#@g."

/-- The resolved value of the `tilemap` asset of `Game::new`:
`build_tilemap` applied to `"#@g."` with cell size `(24, 24)`. -/
def game_tilemap : List (Char × Rect) :=
  build_tilemap tilemap_source.toList 24 24

/-! ## The game state and the compositing pass -/

/-- A failure of an asset observed by the draw pass. Modelled from the
spec: either the asset is not yet available when the frame is drawn, or
fetching it failed. -/
inductive AssetError where
  | notReady
  | loadFailed (code : Nat)
  deriving DecidableEq, Repr

deriving instance DecidableEq for Except

/-- `struct Game` as `Game::draw` observes it. Modelled from the spec:
an `Asset<T>` polled during a frame is either resolved to its value
(`Except.ok`) or failed/not ready (`Except.error`), and `execute`
propagates the error. -/
structure GameState where
  title : Except AssetError Rect
  mononoki_font_info : Except AssetError Rect
  square_font_info : Except AssetError Rect
  tilemap : Except AssetError (List (Char × Rect))
  map : List Tile
  entities : List Entity
  player_id : Nat
  deriving DecidableEq, Repr

/-- The non-asset part of `Game::new`: the 20×15 map, the entity list
with the player pushed last, and `player_id` captured as the length of
the adversary list before the push. -/
def game_new (title mono square : Except AssetError Rect)
    (tilemapAsset : Except AssetError (List (Char × Rect))) : GameState :=
  let map := generate_map 20 15
  let entities := generate_entities
  let player_id := entities.length
  { title := title, mononoki_font_info := mono, square_font_info := square,
    tilemap := tilemapAsset, map := map,
    entities :=
      entities ++ [{ x := 5, y := 3, glyph := '@', color := Color.blue }],
    player_id := player_id }

/-- One call to the window collaborator during a frame. -/
inductive RenderOp where
  | clear (c : Color)
  | drawImg (dst : Rect) (img : Rect)
  | drawBlended (dst : Rect) (img : Rect) (c : Color)
  deriving DecidableEq, Repr

/-- `Rectangle::with_center`: move a rectangle so its center is the given
point (source arithmetic is on f32; all quantities the claims touch are
integers). -/
def withCenter (r : Rect) (cx cy : Int) : Rect :=
  ⟨cx - r.w / 2, cy - r.h / 2, r.w, r.h⟩

/-- `Rectangle::translate` / `Vector::translate`. -/
def translateR (r : Rect) (dx dy : Int) : Rect :=
  ⟨r.x + dx, r.y + dy, r.w, r.h⟩

/-- The body of the tile loop of `Game::draw`: look the glyph up in the
atlas; if present, draw the sub-image blended with the tile's color at
`offset.translate((tile.x * 24, tile.y * 24))` with the image's own
size, where `offset = (50, 150)`; if absent, emit nothing. -/
def tileDraw (tilemap : List (Char × Rect)) (t : Tile) : Option RenderOp :=
  match mapGet tilemap t.glyph with
  | some image =>
    some (.drawBlended ⟨50 + t.x * 24, 150 + t.y * 24, image.w, image.h⟩
      image t.color)
  | none => none

/-- The body of the entity loop of `Game::draw`; identical to the tile
loop with the entity's position, glyph and color. -/
def entityDraw (tilemap : List (Char × Rect)) (e : Entity) :
    Option RenderOp :=
  match mapGet tilemap e.glyph with
  | some image =>
    some (.drawBlended ⟨50 + e.x * 24, 150 + e.y * 24, image.w, image.h⟩
      image e.color)
  | none => none

/-- `Game::draw`, given the screen size reported by the window: clear to
white; draw the title centered at `(screen.x as i32 / 2, 40)`; draw the
two caption images translated to `(2, screen.y - 60)` and
`(2, screen.y - 30)`; then emit one blended draw per map tile in
sequence order, then one per entity in sequence order.  Each of the four
assets is executed behind the `?` operator, so the first asset failure
is returned to the caller.  The returned `GameState` is the state after
the frame. -/
def drawFrame (g : GameState) (screen : Int × Int) :
    Except AssetError (List RenderOp × GameState) := do
  let title ← g.title
  let mono ← g.mononoki_font_info
  let square ← g.square_font_info
  let tilemap ← g.tilemap
  pure
    ([RenderOp.clear Color.white,
      RenderOp.drawImg (withCenter title (screen.1 / 2) 40) title,
      RenderOp.drawImg (translateR mono 2 (screen.2 - 60)) mono,
      RenderOp.drawImg (translateR square 2 (screen.2 - 30)) square]
      ++ g.map.filterMap (tileDraw tilemap)
      ++ g.entities.filterMap (entityDraw tilemap),
     g)

/-! ## Helper lemmas about the two nested loops -/

/-- The nested loop over `x < w`, `y < h` enumerates the same cells as a
single loop over `i < w * h` with `x = i / h`, `y = i % h`. -/
lemma grid_eq_map_range {α : Type} (f : Nat → Nat → α) (w h : Nat)
    (hh : 0 < h) :
    ((List.range w).flatMap fun x => (List.range h).map fun y => f x y) =
      (List.range (w * h)).map fun i => f (i / h) (i % h) := by
  induction w with
  | zero => simp
  | succ w ih =>
    rw [List.range_succ, List.flatMap_append, ih, Nat.succ_mul,
      List.range_add, List.map_append, List.map_map]
    congr 1
    simp only [List.flatMap_cons, List.flatMap_nil, List.append_nil]
    apply List.map_congr_left
    intro j hj
    rw [List.mem_range] at hj
    have hdiv : (w * h + j) / h = w := by
      rw [Nat.mul_comm w h, Nat.mul_add_div hh, Nat.div_eq_of_lt hj,
        Nat.add_zero]
    have hmod : (w * h + j) % h = j := by
      rw [Nat.mul_comm w h, Nat.mul_add_mod, Nat.mod_eq_of_lt hj]
    simp [Function.comp, hdiv, hmod]

/-- The nested loop produces `w * h` elements. -/
lemma grid_length {α : Type} (f : Nat → Nat → α) (w h : Nat) :
    ((List.range w).flatMap fun x =>
      (List.range h).map fun y => f x y).length = w * h := by
  induction w with
  | zero => simp
  | succ w ih =>
    rw [List.range_succ, List.flatMap_append]
    simp [ih, Nat.succ_mul]

/-- The element at position `x * h + y` of the nested loop is the cell
`(x, y)`. -/
lemma grid_get {α : Type} (f : Nat → Nat → α) (w h x y : Nat)
    (hx : x < w) (hy : y < h) :
    ((List.range w).flatMap fun a =>
      (List.range h).map fun b => f a b)[x * h + y]? = some (f x y) := by
  have hh : 0 < h := Nat.lt_of_le_of_lt (Nat.zero_le y) hy
  rw [grid_eq_map_range f w h hh]
  have hlt : x * h + y < w * h := by
    have h1 : x * h + y < (x + 1) * h := by
      rw [Nat.succ_mul]
      omega
    have h2 : (x + 1) * h ≤ w * h := Nat.mul_le_mul_right h hx
    omega
  rw [List.getElem?_map, List.getElem?_range hlt]
  have hdiv : (x * h + y) / h = x := by
    rw [Nat.mul_comm x h, Nat.mul_add_div hh, Nat.div_eq_of_lt hy,
      Nat.add_zero]
  have hmod : (x * h + y) % h = y := by
    rw [Nat.mul_comm x h, Nat.mul_add_mod, Nat.mod_eq_of_lt hy]
  simp [hdiv, hmod]

/-- Membership in the nested loop's output. -/
lemma grid_mem {α : Type} {f : Nat → Nat → α} {w h : Nat} {t : α} :
    (t ∈ (List.range w).flatMap fun x =>
      (List.range h).map fun y => f x y) ↔
      ∃ x, x < w ∧ ∃ y, y < h ∧ t = f x y := by
  simp only [List.mem_flatMap, List.mem_map, List.mem_range]
  constructor
  · rintro ⟨x, hx, y, hy, rfl⟩
    exact ⟨x, hx, y, hy, rfl⟩
  · rintro ⟨x, hx, y, hy, rfl⟩
    exact ⟨x, hx, y, hy, rfl⟩

/-- Filtering `range n` for one value below `n` keeps exactly one
element. -/
lemma range_filter_beq_length (n k : Nat) (hk : k < n) :
    ((List.range n).filter fun i => i == k).length = 1 := by
  induction n with
  | zero => omega
  | succ n ih =>
    rw [List.range_succ, List.filter_append]
    by_cases h : k < n
    · have hne : (n == k) = false := by
        simp only [beq_eq_false_iff_ne]
        omega
      simp [ih h, hne]
    · have hkn : k = n := by omega
      have hnil : (List.range n).filter (fun i => i == k) = [] := by
        rw [List.filter_eq_nil_iff]
        intro a ha
        rw [List.mem_range] at ha
        simp only [beq_iff_eq]
        omega
      subst hkn
      simp [hnil]

/-- If a predicate singles out the cell `(x, y)` among all cells of the
grid, filtering the nested loop's output with it keeps exactly one
element. -/
lemma grid_filter_length_one {α : Type} (f : Nat → Nat → α) (p : α → Bool)
    (w h x y : Nat) (hx : x < w) (hy : y < h)
    (hp : ∀ i, i < w * h → (p (f (i / h) (i % h)) = true ↔ i = x * h + y)) :
    (((List.range w).flatMap fun a =>
      (List.range h).map fun b => f a b).filter p).length = 1 := by
  have hh : 0 < h := Nat.lt_of_le_of_lt (Nat.zero_le y) hy
  rw [grid_eq_map_range f w h hh, List.filter_map, List.length_map]
  have hcongr : (List.range (w * h)).filter
      ((fun t => p t) ∘ fun i => f (i / h) (i % h)) =
      (List.range (w * h)).filter fun i => i == x * h + y := by
    apply List.filter_congr
    intro i hi
    rw [List.mem_range] at hi
    simp only [Function.comp]
    rw [Bool.eq_iff_iff]
    simp only [beq_iff_eq]
    exact hp i hi
  rw [hcongr]
  apply range_filter_beq_length
  have h1 : x * h + y < (x + 1) * h := by
    rw [Nat.succ_mul]
    omega
  have h2 : (x + 1) * h ≤ w * h := Nat.mul_le_mul_right h hx
  omega

/-- When every element is mapped successfully, `optMapM` is a plain
`map`. -/
lemma optMapM_eq_map {α β : Type} (f : α → Option β) (g : α → β)
    (l : List α) (h : ∀ a ∈ l, f a = some (g a)) :
    optMapM f l = some (l.map g) := by
  induction l with
  | nil => rfl
  | cons a l ih =>
    have ha : f a = some (g a) := h a (List.mem_cons_self a l)
    have hl := ih fun b hb => h b (List.mem_cons_of_mem a hb)
    simp [optMapM, ha, hl]

/-- Inside the loops (`x < width`, `y < height`) the checked border test
never panics and computes the same glyph as `mkTile`. -/
lemma tileGlyphChecked_eq (width height x y : Nat) (hx : x < width)
    (hy : y < height) :
    tileGlyphChecked width height x y = some (mkTile width height x y).glyph := by
  unfold tileGlyphChecked mkTile
  by_cases h0 : x = 0
  · simp [h0]
  · have hw : 1 ≤ width := by omega
    have hsub : checkedSub width 1 = some (width - 1) := by
      simp [checkedSub, hw]
    rw [hsub]
    have hx0 : (x == 0) = false := by simp [h0]
    by_cases h1 : x = width - 1
    · simp [hx0, h1]
    · have hx1 : (x == width - 1) = false := by simp [h1]
      by_cases h2 : y = 0
      · simp [hx0, hx1, h2]
      · have hy0 : (y == 0) = false := by simp [h2]
        have hh : 1 ≤ height := by omega
        have hsub2 : checkedSub height 1 = some (height - 1) := by
          simp [checkedSub, hh]
        rw [hsub2]
        by_cases h3 : y = height - 1
        · simp [hx0, hx1, hy0, h3]
        · have hy1 : (y == height - 1) = false := by simp [h3]
          simp [hx0, hx1, hy0, hy1]

/-! ## Claims about `generate_map` -/

/-- C1: for every `width ≥ 2` and `height ≥ 2`, `generate_map` returns
exactly `width * height` tiles, exactly one tile per grid cell, and a
tile's glyph is the wall `'#'` iff its cell lies on the outer ring
(`x = 0`, `x = width - 1`, `y = 0` or `y = height - 1`); every other
tile carries the floor glyph `'.'`. -/
theorem generate_map_correct (w h : Nat) (hw : 2 ≤ w) (hh : 2 ≤ h) :
    (generate_map w h).length = w * h ∧
    (∀ x y : Nat, x < w → y < h →
      ((generate_map w h).filter fun t =>
        t.x == (x : Int) && t.y == (y : Int)).length = 1) ∧
    (∀ t ∈ generate_map w h,
      (t.glyph = '#' ∨ t.glyph = '.') ∧
      (t.glyph = '#' ↔
        (t.x = 0 ∨ t.x = (w : Int) - 1 ∨ t.y = 0 ∨ t.y = (h : Int) - 1))) := by
  refine ⟨grid_length _ w h, ?_, ?_⟩
  · intro x y hx hy
    apply grid_filter_length_one (mkTile w h) _ w h x y hx hy
    intro i hi
    have hdm := Nat.div_add_mod i h
    simp only [mkTile, Bool.and_eq_true, beq_iff_eq]
    constructor
    · rintro ⟨h1, h2⟩
      have e1 : i / h = x := by exact_mod_cast h1
      have e2 : i % h = y := by exact_mod_cast h2
      rw [← hdm, e1, e2, Nat.mul_comm h x]
    · rintro rfl
      have hh0 : 0 < h := by omega
      have hdiv : (x * h + y) / h = x := by
        rw [Nat.mul_comm x h, Nat.mul_add_div hh0, Nat.div_eq_of_lt hy,
          Nat.add_zero]
      have hmod : (x * h + y) % h = y := by
        rw [Nat.mul_comm x h, Nat.mul_add_mod, Nat.mod_eq_of_lt hy]
      rw [hdiv, hmod]
      exact ⟨rfl, rfl⟩
  · intro t ht
    rw [generate_map, grid_mem] at ht
    obtain ⟨x, hx, y, hy, rfl⟩ := ht
    by_cases hc : (x == 0 || x == w - 1 || y == 0 || y == h - 1) = true
    · have hglyph : (mkTile w h x y).glyph = '#' := by simp [mkTile, hc]
      simp only [Bool.or_eq_true, beq_iff_eq] at hc
      refine ⟨Or.inl hglyph, ?_⟩
      rw [hglyph]
      simp only [mkTile, true_iff]
      omega
    · have hglyph : (mkTile w h x y).glyph = '.' := by
        simp only [mkTile]
        rw [if_neg]
        simp [hc]
      simp only [Bool.or_eq_true, beq_iff_eq] at hc
      push_neg at hc
      refine ⟨Or.inr hglyph, ?_⟩
      rw [hglyph]
      simp only [mkTile]
      constructor
      · intro hcontra
        exact absurd hcontra (by decide)
      · intro hcontra
        exfalso
        omega

/-- C1 witness: the theorem instantiated at the map the game actually
generates (20 × 15). -/
theorem generate_map_correct_witness :
    (generate_map 20 15).length = 20 * 15 :=
  (generate_map_correct 20 15 (by decide) (by decide)).1

/-- C9: the tile sequence is column-major; the tile at sequence position
`x * height + y` has coordinates `(x, y)` for every `x < width`,
`y < height`. -/
theorem generate_map_column_major (w h x y : Nat) (hw : 2 ≤ w)
    (hh : 2 ≤ h) (hx : x < w) (hy : y < h) :
    ∃ t, (generate_map w h)[x * h + y]? = some t ∧
      t.x = (x : Int) ∧ t.y = (y : Int) :=
  ⟨mkTile w h x y, grid_get (mkTile w h) w h x y hx hy, rfl, rfl⟩

/-- C9 witness: in the 20 × 15 map, the tile at sequence position
`5 * 15 + 3` has coordinates `(5, 3)`. -/
theorem generate_map_column_major_witness :
    ∃ t, (generate_map 20 15)[5 * 15 + 3]? = some t ∧
      t.x = ((5 : Nat) : Int) ∧ t.y = ((3 : Nat) : Int) :=
  generate_map_column_major 20 15 5 3 (by decide) (by decide) (by decide)
    (by decide)

/-- C10: `generate_map` is total for all inputs: the panic-faithful
variant succeeds and agrees with it for every width and height; for
`width = 0` or `height = 0` the result is empty; for `width = 1` or
`height = 1` every tile is a wall. -/
theorem generate_map_total (w h : Nat) :
    generate_map_checked w h = some (generate_map w h) ∧
    ((w = 0 ∨ h = 0) → generate_map w h = []) ∧
    ((w = 1 ∨ h = 1) → ∀ t ∈ generate_map w h, t.glyph = '#') := by
  refine ⟨?_, ?_, ?_⟩
  · rw [generate_map_checked,
      optMapM_eq_map _ (fun p => mkTile w h p.1 p.2)]
    · rw [generate_map, List.map_flatMap]
      simp only [List.map_map]
      rfl
    · intro p hp
      rw [grid_mem] at hp
      obtain ⟨x, hx, y, hy, rfl⟩ := hp
      rw [tileGlyphChecked_eq w h x y hx hy]
      simp only [Option.map_some]
      rfl
  · intro hzero
    have hlen : (generate_map w h).length = w * h := grid_length _ w h
    have : w * h = 0 := by
      rcases hzero with rfl | rfl
      · exact Nat.zero_mul h
      · exact Nat.mul_zero w
    rw [this] at hlen
    exact List.length_eq_zero.mp hlen
  · intro hone t ht
    rw [generate_map, grid_mem] at ht
    obtain ⟨x, hx, y, hy, rfl⟩ := ht
    rcases hone with rfl | rfl
    · have : x = 0 := by omega
      subst this
      simp [mkTile]
    · have : y = 0 := by omega
      subst this
      simp [mkTile]

/-- C10 witness: at width 0 the map is empty and nothing panics. -/
theorem generate_map_total_witness :
    generate_map_checked 0 5 = some (generate_map 0 5) ∧
      generate_map 0 5 = [] :=
  ⟨(generate_map_total 0 5).1, (generate_map_total 0 5).2.1 (Or.inl rfl)⟩

/-! ## Claims about the entity catalog and the glyph atlas -/

/-- C2: at startup the entity list is exactly the two red goblins at
(9,6) and (2,4), in that order, followed by the blue protagonist `'@'`
at (5,3) appended last; the recorded `player_id` is the protagonist's
index, which is the list's length minus one. -/
theorem game_new_entities (title mono square : Except AssetError Rect)
    (tilemapAsset : Except AssetError (List (Char × Rect))) :
    (game_new title mono square tilemapAsset).entities =
      [ { x := 9, y := 6, glyph := 'g', color := Color.red },
        { x := 2, y := 4, glyph := 'g', color := Color.red },
        { x := 5, y := 3, glyph := '@', color := Color.blue } ] ∧
    (game_new title mono square tilemapAsset).player_id =
      (game_new title mono square tilemapAsset).entities.length - 1 ∧
    (game_new title mono square tilemapAsset).entities[
      (game_new title mono square tilemapAsset).player_id]? =
      some { x := 5, y := 3, glyph := '@', color := Color.blue } :=
  ⟨rfl, rfl, rfl⟩

/-- C2 witness: the theorem at concrete asset handles. -/
theorem game_new_entities_witness :
    (game_new (.ok ⟨0, 0, 1, 1⟩) (.ok ⟨0, 0, 1, 1⟩) (.ok ⟨0, 0, 1, 1⟩)
      (.ok [])).entities =
      [ { x := 9, y := 6, glyph := 'g', color := Color.red },
        { x := 2, y := 4, glyph := 'g', color := Color.red },
        { x := 5, y := 3, glyph := '@', color := Color.blue } ] :=
  (game_new_entities (.ok ⟨0, 0, 1, 1⟩) (.ok ⟨0, 0, 1, 1⟩)
    (.ok ⟨0, 0, 1, 1⟩) (.ok [])).1

/-- C3: the atlas built from `"#@g."` with cell size `(24, 24)` maps
exactly the four characters `#`, `@`, `g`, `.`; the character at source
index `i` maps to the 24 × 24 rectangle at horizontal offset `i * 24`,
vertical offset `0`; every other character is absent. -/
theorem build_tilemap_correct :
    tilemap_source.toList = ['#', '@', 'g', '.'] ∧
    mapGet game_tilemap '#' = some ⟨0 * 24, 0, 24, 24⟩ ∧
    mapGet game_tilemap '@' = some ⟨1 * 24, 0, 24, 24⟩ ∧
    mapGet game_tilemap 'g' = some ⟨2 * 24, 0, 24, 24⟩ ∧
    mapGet game_tilemap '.' = some ⟨3 * 24, 0, 24, 24⟩ ∧
    ∀ c : Char, c ≠ '#' → c ≠ '@' → c ≠ 'g' → c ≠ '.' →
      mapGet game_tilemap c = none := by
  refine ⟨by decide, by decide, by decide, by decide, by decide, ?_⟩
  intro c h1 h2 h3 h4
  have hmap : game_tilemap =
      [('#', ⟨0, 0, 24, 24⟩), ('@', ⟨24, 0, 24, 24⟩),
       ('g', ⟨48, 0, 24, 24⟩), ('.', ⟨72, 0, 24, 24⟩)] := by decide
  have e1 : ('#' == c) = false := beq_eq_false_iff_ne.mpr (Ne.symm h1)
  have e2 : ('@' == c) = false := beq_eq_false_iff_ne.mpr (Ne.symm h2)
  have e3 : ('g' == c) = false := beq_eq_false_iff_ne.mpr (Ne.symm h3)
  have e4 : ('.' == c) = false := beq_eq_false_iff_ne.mpr (Ne.symm h4)
  rw [hmap]
  simp [mapGet, List.find?, e1, e2, e3, e4]

/-- C3 witness: a character outside the source string is absent from the
atlas. -/
theorem build_tilemap_correct_witness : mapGet game_tilemap 'z' = none :=
  build_tilemap_correct.2.2.2.2.2 'z' (by decide) (by decide) (by decide)
    (by decide)

/-! ## Claims about the compositing pass -/

/-- Reduction of a successful `Asset::execute` step. -/
lemma bindOk {ε α β : Type} (a : α) (f : α → Except ε β) :
    (Except.ok a >>= f) = f a := rfl

/-- Reduction of a failing `Asset::execute` step: the error is returned
to the caller. -/
lemma bindErr {ε α β : Type} (e : ε) (f : α → Except ε β) :
    ((Except.error e : Except ε α) >>= f) = Except.error e := rfl

/-- The frame ops emitted by a fully successful draw pass, in emission
order: clear, title, the two captions, then one blended draw per map
tile in sequence order, then one per entity in sequence order. -/
lemma drawFrame_ok (g : GameState) (s : Int × Int)
    (title mono square : Rect) (tm : List (Char × Rect))
    (hT : g.title = .ok title) (hM : g.mononoki_font_info = .ok mono)
    (hS : g.square_font_info = .ok square) (hTm : g.tilemap = .ok tm) :
    drawFrame g s = .ok
      ([RenderOp.clear Color.white,
        RenderOp.drawImg (withCenter title (s.1 / 2) 40) title,
        RenderOp.drawImg (translateR mono 2 (s.2 - 60)) mono,
        RenderOp.drawImg (translateR square 2 (s.2 - 30)) square]
        ++ g.map.filterMap (tileDraw tm)
        ++ g.entities.filterMap (entityDraw tm), g) := by
  simp [drawFrame, hT, hM, hS, hTm, bindOk]

/-- C4: whenever the glyph of a tile or entity is present in the atlas,
the pass draws its image at `offset + (x * 24, y * 24)` with the fixed
offset `(50, 150)` (and the image's own size), blended with the
element's color. -/
theorem draw_cell_positions (g : GameState) (s : Int × Int)
    (title mono square : Rect) (tm : List (Char × Rect))
    (hT : g.title = .ok title) (hM : g.mononoki_font_info = .ok mono)
    (hS : g.square_font_info = .ok square) (hTm : g.tilemap = .ok tm)
    (ops : List RenderOp) (g' : GameState)
    (hD : drawFrame g s = .ok (ops, g')) :
    (∀ t ∈ g.map, ∀ img, mapGet tm t.glyph = some img →
      RenderOp.drawBlended ⟨50 + t.x * 24, 150 + t.y * 24, img.w, img.h⟩
        img t.color ∈ ops) ∧
    (∀ e ∈ g.entities, ∀ img, mapGet tm e.glyph = some img →
      RenderOp.drawBlended ⟨50 + e.x * 24, 150 + e.y * 24, img.w, img.h⟩
        img e.color ∈ ops) := by
  rw [drawFrame_ok g s title mono square tm hT hM hS hTm] at hD
  simp only [Except.ok.injEq, Prod.mk.injEq] at hD
  obtain ⟨hops, -⟩ := hD
  subst hops
  constructor
  · intro t ht img himg
    rw [List.append_assoc]
    apply List.mem_append_right
    apply List.mem_append_left
    rw [List.mem_filterMap]
    exact ⟨t, ht, by simp [tileDraw, himg]⟩
  · intro e he img himg
    apply List.mem_append_right
    rw [List.mem_filterMap]
    exact ⟨e, he, by simp [entityDraw, himg]⟩

/-- The fully initialized game: `Game::new` with all four assets
resolved (the glyph atlas to its computed value, the three text images
to their area rectangles). -/
def game_full : GameState :=
  game_new (.ok ⟨0, 0, 600, 80⟩) (.ok ⟨0, 0, 400, 20⟩)
    (.ok ⟨0, 0, 300, 20⟩) (.ok game_tilemap)

/-- C4 witness: in the fully initialized game on the 800 × 600 window,
the protagonist at grid cell (5, 3) is drawn with its top-left corner at
pixel (170, 222). -/
theorem draw_cell_positions_witness :
    ∃ ops g', drawFrame game_full (800, 600) = Except.ok (ops, g') ∧
      RenderOp.drawBlended ⟨170, 222, 24, 24⟩ ⟨24, 0, 24, 24⟩ Color.blue
        ∈ ops := by
  refine ⟨_, _, rfl, ?_⟩
  have h := (draw_cell_positions game_full (800, 600) ⟨0, 0, 600, 80⟩
    ⟨0, 0, 400, 20⟩ ⟨0, 0, 300, 20⟩ game_tilemap rfl rfl rfl rfl _ _
    rfl).2 { x := 5, y := 3, glyph := '@', color := Color.blue }
    (by decide) ⟨24, 0, 24, 24⟩ (by decide)
  exact h

/-- C5: a tile or entity whose glyph is absent from the atlas is skipped
silently: the pass still succeeds, and it emits exactly the ops it would
emit were the element not there at all — nothing is drawn for that cell
and the remaining elements are processed unchanged. -/
theorem draw_missing_glyph_skipped (g : GameState) (s : Int × Int)
    (title mono square : Rect) (tm : List (Char × Rect))
    (hT : g.title = .ok title) (hM : g.mononoki_font_info = .ok mono)
    (hS : g.square_font_info = .ok square) (hTm : g.tilemap = .ok tm) :
    (∃ ops, drawFrame g s = .ok (ops, g)) ∧
    (∀ pre post t, mapGet tm t.glyph = none → g.map = pre ++ t :: post →
      ∃ ops, drawFrame g s = .ok (ops, g) ∧
        drawFrame { g with map := pre ++ post } s =
          .ok (ops, { g with map := pre ++ post })) ∧
    (∀ pre post e, mapGet tm e.glyph = none →
      g.entities = pre ++ e :: post →
      ∃ ops, drawFrame g s = .ok (ops, g) ∧
        drawFrame { g with entities := pre ++ post } s =
          .ok (ops, { g with entities := pre ++ post })) := by
  refine ⟨⟨_, drawFrame_ok g s title mono square tm hT hM hS hTm⟩, ?_, ?_⟩
  · intro pre post t hmiss hsplit
    have htd : tileDraw tm t = none := by simp [tileDraw, hmiss]
    refine ⟨_, ?_,
      drawFrame_ok { g with map := pre ++ post } s title mono square tm
        hT hM hS hTm⟩
    rw [drawFrame_ok g s title mono square tm hT hM hS hTm]
    simp only [hsplit, List.filterMap_append, List.filterMap_cons, htd]
  · intro pre post e hmiss hsplit
    have hed : entityDraw tm e = none := by simp [entityDraw, hmiss]
    refine ⟨_, ?_,
      drawFrame_ok { g with entities := pre ++ post } s title mono square
        tm hT hM hS hTm⟩
    rw [drawFrame_ok g s title mono square tm hT hM hS hTm]
    simp only [hsplit, List.filterMap_append, List.filterMap_cons, hed]

/-- C5 witness: a tile with the unknown glyph `'?'` placed in front of
the map is skipped: the pass succeeds and emits exactly the ops emitted
without it. -/
theorem draw_missing_glyph_skipped_witness :
    ∃ ops,
      drawFrame
        { game_full with
          map := { x := 0, y := 0, glyph := '?', color := Color.black }
            :: game_full.map } (800, 600) =
        .ok (ops,
          { game_full with
            map := { x := 0, y := 0, glyph := '?', color := Color.black }
              :: game_full.map }) ∧
      drawFrame
        { game_full with map := [] ++ game_full.map } (800, 600) =
        .ok (ops, { game_full with map := [] ++ game_full.map }) :=
  (draw_missing_glyph_skipped
    { game_full with
      map := { x := 0, y := 0, glyph := '?', color := Color.black }
        :: game_full.map } (800, 600) ⟨0, 0, 600, 80⟩ ⟨0, 0, 400, 20⟩
    ⟨0, 0, 300, 20⟩ game_tilemap rfl rfl rfl rfl).2.1 []
    game_full.map { x := 0, y := 0, glyph := '?', color := Color.black }
    (by decide) rfl

/-- C6: the emitted sequence is the frame preamble, then all map-tile
draws in the map's order, then all entity draws in the entity list's
order; and the pass is deterministic — identical inputs give an
identical draw-call sequence. -/
theorem draw_order (g : GameState) (s : Int × Int)
    (title mono square : Rect) (tm : List (Char × Rect))
    (hT : g.title = .ok title) (hM : g.mononoki_font_info = .ok mono)
    (hS : g.square_font_info = .ok square) (hTm : g.tilemap = .ok tm) :
    drawFrame g s = .ok
      ([RenderOp.clear Color.white,
        RenderOp.drawImg (withCenter title (s.1 / 2) 40) title,
        RenderOp.drawImg (translateR mono 2 (s.2 - 60)) mono,
        RenderOp.drawImg (translateR square 2 (s.2 - 30)) square]
        ++ g.map.filterMap (tileDraw tm)
        ++ g.entities.filterMap (entityDraw tm), g) ∧
    (∀ g2 s2, g2 = g → s2 = s → drawFrame g2 s2 = drawFrame g s) := by
  refine ⟨drawFrame_ok g s title mono square tm hT hM hS hTm, ?_⟩
  rintro g2 s2 rfl rfl
  rfl

/-- C6 witness: the theorem applied to the fully initialized game. -/
theorem draw_order_witness :
    drawFrame game_full (800, 600) = .ok
      ([RenderOp.clear Color.white,
        RenderOp.drawImg
          (withCenter ⟨0, 0, 600, 80⟩ (((800 : Int), (600 : Int)).1 / 2) 40)
          ⟨0, 0, 600, 80⟩,
        RenderOp.drawImg
          (translateR ⟨0, 0, 400, 20⟩ 2 (((800 : Int), (600 : Int)).2 - 60))
          ⟨0, 0, 400, 20⟩,
        RenderOp.drawImg
          (translateR ⟨0, 0, 300, 20⟩ 2 (((800 : Int), (600 : Int)).2 - 30))
          ⟨0, 0, 300, 20⟩]
        ++ game_full.map.filterMap (tileDraw game_tilemap)
        ++ game_full.entities.filterMap (entityDraw game_tilemap),
       game_full) :=
  (draw_order game_full (800, 600) ⟨0, 0, 600, 80⟩ ⟨0, 0, 400, 20⟩
    ⟨0, 0, 300, 20⟩ game_tilemap rfl rfl rfl rfl).1

/-- C7: the draw pass mutates nothing: the state it returns is the state
it was given (same map, entity list, player id and atlas), so invoking
it again on that state yields the identical output. -/
theorem draw_idempotent (g : GameState) (s : Int × Int)
    (ops : List RenderOp) (g' : GameState)
    (h : drawFrame g s = .ok (ops, g')) :
    g' = g ∧ drawFrame g' s = .ok (ops, g') := by
  rcases hT : g.title with e | title
  · rw [drawFrame, hT, bindErr] at h
    exact absurd h (by simp)
  rcases hM : g.mononoki_font_info with e | mono
  · rw [drawFrame, hT, bindOk, hM, bindErr] at h
    exact absurd h (by simp)
  rcases hS : g.square_font_info with e | square
  · rw [drawFrame, hT, bindOk, hM, bindOk, hS, bindErr] at h
    exact absurd h (by simp)
  rcases hTm : g.tilemap with e | tm
  · rw [drawFrame, hT, bindOk, hM, bindOk, hS, bindOk, hTm, bindErr] at h
    exact absurd h (by simp)
  rw [drawFrame_ok g s title mono square tm hT hM hS hTm] at h
  simp only [Except.ok.injEq, Prod.mk.injEq] at h
  obtain ⟨hops, hg⟩ := h
  subst hg
  refine ⟨rfl, ?_⟩
  rw [drawFrame_ok g s title mono square tm hT hM hS hTm, hops]

/-- C7 witness: drawing the fully initialized game returns it unchanged,
and a second draw on the returned state emits the same ops. -/
theorem draw_idempotent_witness :
    ∃ ops g', drawFrame game_full (800, 600) = Except.ok (ops, g') ∧
      g' = game_full ∧ drawFrame g' (800, 600) = Except.ok (ops, g') := by
  refine ⟨_, _, rfl, ?_⟩
  exact draw_idempotent game_full (800, 600) _ _ rfl

/-- C8: a required asset (title or either caption) that is not yet
available or failed makes the draw pass return that failure to the
caller instead of silently skipping the asset. -/
theorem draw_required_asset_error (g : GameState) (s : Int × Int) :
    (∀ e, g.title = .error e → drawFrame g s = .error e) ∧
    (∀ e title, g.title = .ok title → g.mononoki_font_info = .error e →
      drawFrame g s = .error e) ∧
    (∀ e title mono, g.title = .ok title →
      g.mononoki_font_info = .ok mono → g.square_font_info = .error e →
      drawFrame g s = .error e) := by
  refine ⟨?_, ?_, ?_⟩
  · intro e hT
    rw [drawFrame, hT, bindErr]
  · intro e title hT hM
    rw [drawFrame, hT, bindOk, hM, bindErr]
  · intro e title mono hT hM hS
    rw [drawFrame, hT, bindOk, hM, bindOk, hS, bindErr]

/-- C8 witness: with the title image not yet ready, the frame aborts
with exactly that error. -/
theorem draw_required_asset_error_witness :
    drawFrame
      { game_full with title := Except.error AssetError.notReady }
      (800, 600) = Except.error AssetError.notReady :=
  (draw_required_asset_error
    { game_full with title := Except.error AssetError.notReady }
    (800, 600)).1 AssetError.notReady rfl
